import Mathlib

/-!
Verification of the regcheck regular-expression lexer (src/regex/lexer.rs).

The lexer consumes the pattern string left to right, keeping a zero-based
position counter `i` (used only to disambiguate the caret), an
escape-pending flag, and — while scanning the body of a brace quantifier —
an in-brace mode.  The Rust source implements the brace body as an inner
loop over the same character iterator; here that inner loop is the
`inBrace = true` mode of the single recursive scanner `lexGo`, which makes
the recursion structural on the character list.
-/

namespace Regcheck

/-- Structured lexical error value, mirroring `struct LexerError(String)`. -/
structure LexerError where
  msg : String
deriving DecidableEq

/-- Rendering of a `LexerError`, mirroring its `Display` implementation. -/
def LexerError.display (e : LexerError) : String :=
  "There occurred an error in lexer: " ++ e.msg

inductive Parenthesis
  | LeftParenthesis
  | RightParenthesis
deriving DecidableEq

inductive CurlyBrace
  | RightCurlyBrace
  | LeftCurlyBrace
deriving DecidableEq

inductive Bracket
  | RightBracket
  | LeftBracket
deriving DecidableEq

inductive ZeroOrMore
  | Asterisk
  | QuestionMark
deriving DecidableEq

inductive Quantifier
  | ZeroOrMore (z : ZeroOrMore)
  | OneOrMore
deriving DecidableEq

inductive Token
  | ElementToken (c : Char)
  | WildCardToken
  | StartToken
  | EndToken
  | CommaToken
  | Parenthesis (p : Parenthesis)
  | CurlyBrace (b : CurlyBrace)
  | Bracket (b : Bracket)
  | Quantifier (q : Quantifier)
  | OrToken
  | NotToken
  | DashToken
deriving DecidableEq

/-- Scanner loop of `lexer` in src/regex/lexer.rs.  Arguments: remaining
characters, the position counter `i`, the `escape_found` flag, and whether
the scan is currently inside the brace-body inner loop.  On the opening
brace the Rust code bumps `i` in the match arm and once more at the bottom
of the outer iteration, and the inner loop never touches `i` or
`escape_found`; hence the brace mode is entered at `i + 2`, keeps `i`
unchanged, and returns to normal mode with the flag cleared. -/
def lexGo : List Char → Nat → Bool → Bool → Except LexerError (List Token)
  | [], _, _, _ => .ok []
  | c :: rest, i, esc, inBrace =>
    if inBrace then
      if c = ',' then
        (lexGo rest i esc true).map (fun ts => Token.CommaToken :: ts)
      else if c.isDigit then
        (lexGo rest i esc true).map (fun ts => Token.ElementToken c :: ts)
      else if c = '}' then
        (lexGo rest i false false).map
          (fun ts => Token.CurlyBrace CurlyBrace.RightCurlyBrace :: ts)
      else Except.error (LexerError.mk "")
    else if esc then
      (lexGo rest (i + 1) false false).map
        (fun ts => Token.ElementToken (if c = 't' then '\t' else c) :: ts)
    else if c = '\\' then lexGo rest (i + 1) true false
    else if c = '^' then
      (lexGo rest (i + 1) false false).map
        (fun ts => (if i = 0 then Token.StartToken else Token.NotToken) :: ts)
    else if c = '$' then
      (lexGo rest (i + 1) false false).map (fun ts => Token.EndToken :: ts)
    else if c = '.' then
      (lexGo rest (i + 1) false false).map (fun ts => Token.WildCardToken :: ts)
    else if c = '*' then
      (lexGo rest (i + 1) false false).map
        (fun ts => Token.Quantifier (Quantifier.ZeroOrMore ZeroOrMore.Asterisk) :: ts)
    else if c = '?' then
      (lexGo rest (i + 1) false false).map
        (fun ts => Token.Quantifier (Quantifier.ZeroOrMore ZeroOrMore.QuestionMark) :: ts)
    else if c = '+' then
      (lexGo rest (i + 1) false false).map
        (fun ts => Token.Quantifier Quantifier.OneOrMore :: ts)
    else if c = '|' then
      (lexGo rest (i + 1) false false).map (fun ts => Token.OrToken :: ts)
    else if c = '(' then
      (lexGo rest (i + 1) false false).map
        (fun ts => Token.Parenthesis Parenthesis.LeftParenthesis :: ts)
    else if c = ')' then
      (lexGo rest (i + 1) false false).map
        (fun ts => Token.Parenthesis Parenthesis.RightParenthesis :: ts)
    else if c = '-' then
      (lexGo rest (i + 1) false false).map (fun ts => Token.DashToken :: ts)
    else if c = '[' then
      (lexGo rest (i + 1) false false).map
        (fun ts => Token.Bracket Bracket.LeftBracket :: ts)
    else if c = ']' then
      (lexGo rest (i + 1) false false).map
        (fun ts => Token.Bracket Bracket.RightBracket :: ts)
    else if c = '{' then
      (lexGo rest (i + 2) false true).map
        (fun ts => Token.CurlyBrace CurlyBrace.LeftCurlyBrace :: ts)
    else if c = '}' then
      (lexGo rest (i + 1) false false).map
        (fun ts => Token.CurlyBrace CurlyBrace.RightCurlyBrace :: ts)
    else (lexGo rest (i + 1) false false).map (fun ts => Token.ElementToken c :: ts)

/-- Entry point of the scan, mirroring `lexer(s: &str)`: position counter
starts at zero, no escape pending, not inside a brace body. -/
def lexer (s : List Char) : Except LexerError (List Token) :=
  lexGo s 0 false false

example : lexer ['a'] = .ok [Token.ElementToken 'a'] := rfl
example : lexer ['a', '{', '3', ',', '5', '}'] =
    .ok [Token.ElementToken 'a', Token.CurlyBrace CurlyBrace.LeftCurlyBrace,
      Token.ElementToken '3', Token.CommaToken, Token.ElementToken '5',
      Token.CurlyBrace CurlyBrace.RightCurlyBrace] := rfl
example : lexer ['{', 'a', '}'] = .error (LexerError.mk "") := rfl
example : lexer ['\\', '.'] = .ok [Token.ElementToken '.'] := rfl
example : lexer ['\\', 't'] = .ok [Token.ElementToken '\t'] := rfl
example : lexer ['^', 'a'] = .ok [Token.StartToken, Token.ElementToken 'a'] := rfl
example : lexer ['a', '^'] = .ok [Token.ElementToken 'a', Token.NotToken] := rfl
example : lexer ['a', '$'] = .ok [Token.ElementToken 'a', Token.EndToken] := rfl
example : lexer ['a', '\\'] = .ok [Token.ElementToken 'a'] := rfl
example : lexer ['{', '3', ','] =
    .ok [Token.CurlyBrace CurlyBrace.LeftCurlyBrace, Token.ElementToken '3',
      Token.CommaToken] := rfl

/-- Discriminator for the error side of an `Except` result. -/
def exceptIsError {ε α : Type} : Except ε α → Bool
  | .error _ => true
  | .ok _ => false

lemma exceptIsError_map {ε α β : Type} (f : α → β) (x : Except ε α) :
    exceptIsError (x.map f) = exceptIsError x := by
  cases x <;> rfl

lemma map_eq_error_iff {ε α β : Type} (f : α → β) (x : Except ε α) (e : ε) :
    x.map f = .error e ↔ x = .error e := by
  cases x <;> simp [Except.map]

lemma exists_error_iff {ε α : Type} (x : Except ε α) :
    (∃ e, x = .error e) ↔ exceptIsError x = true := by
  cases x <;> simp [exceptIsError]

lemma dropWhile_length_le (p : Char → Bool) (l : List Char) :
    (l.dropWhile p).length ≤ l.length := by
  induction l with
  | nil => simp
  | cons c rest ih =>
    cases h : p c
    · rw [List.dropWhile_cons_of_neg (by simp [h])]
    · rw [List.dropWhile_cons_of_pos (by simp [h])]
      exact Nat.le_succ_of_le ih

/-- Written from the specification text: a brace body is invalid when a
character that is neither an ASCII digit nor a comma occurs before the
first closing brace. -/
def braceBodyBad (l : List Char) : Bool :=
  (l.takeWhile (fun c => c != '}')).any (fun c => !(c.isDigit || c == ','))

/-- Written from the specification text: the input remaining after a brace
body, namely everything past the first closing brace (nothing remains when
the body runs to end-of-input). -/
def afterBraceBody (l : List Char) : List Char :=
  (l.dropWhile (fun c => c != '}')).drop 1

lemma afterBraceBody_length (l : List Char) : (afterBraceBody l).length ≤ l.length := by
  have h := dropWhile_length_le (fun c => c != '}') l
  simp only [afterBraceBody, List.length_drop]
  omega

/-- Written from the specification text: the scan fails exactly when, after
entering a brace sub-scan on an unescaped opening brace, a character other
than an ASCII digit, a comma or a closing brace is consumed before the
closing brace.  The second argument is the escape-pending flag. -/
def specScanFails : List Char → Bool → Bool
  | [], _ => false
  | _ :: rest, true => specScanFails rest false
  | c :: rest, false =>
    if c = '\\' then specScanFails rest true
    else if c = '{' then
      braceBodyBad rest || specScanFails (afterBraceBody rest) false
    else specScanFails rest false
termination_by l _ => l.length
decreasing_by
  all_goals simp only [List.length_cons]
  · omega
  · omega
  · have := afterBraceBody_length rest
    omega
  · omega

/-- Token produced by the normal-mode dispatch of `lexGo` for a character
that is neither a backslash nor an opening brace. -/
def dispatchToken (c : Char) (i : Nat) : Token :=
  if c = '^' then (if i = 0 then Token.StartToken else Token.NotToken)
  else if c = '$' then Token.EndToken
  else if c = '.' then Token.WildCardToken
  else if c = '*' then Token.Quantifier (Quantifier.ZeroOrMore ZeroOrMore.Asterisk)
  else if c = '?' then Token.Quantifier (Quantifier.ZeroOrMore ZeroOrMore.QuestionMark)
  else if c = '+' then Token.Quantifier Quantifier.OneOrMore
  else if c = '|' then Token.OrToken
  else if c = '(' then Token.Parenthesis Parenthesis.LeftParenthesis
  else if c = ')' then Token.Parenthesis Parenthesis.RightParenthesis
  else if c = '-' then Token.DashToken
  else if c = '[' then Token.Bracket Bracket.LeftBracket
  else if c = ']' then Token.Bracket Bracket.RightBracket
  else if c = '}' then Token.CurlyBrace CurlyBrace.RightCurlyBrace
  else Token.ElementToken c

lemma lexGo_dispatch (c : Char) (rest : List Char) (i : Nat)
    (h1 : c ≠ '\\') (h2 : c ≠ '{') :
    lexGo (c :: rest) i false false =
      (lexGo rest (i + 1) false false).map (fun ts => dispatchToken c i :: ts) := by
  by_cases h3 : c = '^'
  · subst h3; rfl
  by_cases h4 : c = '$'
  · subst h4; rfl
  by_cases h5 : c = '.'
  · subst h5; rfl
  by_cases h6 : c = '*'
  · subst h6; rfl
  by_cases h7 : c = '?'
  · subst h7; rfl
  by_cases h8 : c = '+'
  · subst h8; rfl
  by_cases h9 : c = '|'
  · subst h9; rfl
  by_cases h10 : c = '('
  · subst h10; rfl
  by_cases h11 : c = ')'
  · subst h11; rfl
  by_cases h12 : c = '-'
  · subst h12; rfl
  by_cases h13 : c = '['
  · subst h13; rfl
  by_cases h14 : c = ']'
  · subst h14; rfl
  by_cases h15 : c = '}'
  · subst h15; rfl
  simp only [lexGo, dispatchToken, if_neg Bool.false_ne_true, if_neg h1, if_neg h2,
    if_neg h3, if_neg h4, if_neg h5, if_neg h6, if_neg h7, if_neg h8, if_neg h9,
    if_neg h10, if_neg h11, if_neg h12, if_neg h13, if_neg h14, if_neg h15]

lemma dispatchToken_ne_comma (c : Char) (i : Nat) :
    dispatchToken c i ≠ Token.CommaToken := by
  by_cases h3 : c = '^'
  · subst h3
    by_cases h : i = 0
    · subst h; decide
    · unfold dispatchToken
      rw [if_pos rfl, if_neg h]
      decide
  by_cases h4 : c = '$'
  · subst h4; simp [dispatchToken]
  by_cases h5 : c = '.'
  · subst h5; simp [dispatchToken]
  by_cases h6 : c = '*'
  · subst h6; simp [dispatchToken]
  by_cases h7 : c = '?'
  · subst h7; simp [dispatchToken]
  by_cases h8 : c = '+'
  · subst h8; simp [dispatchToken]
  by_cases h9 : c = '|'
  · subst h9; simp [dispatchToken]
  by_cases h10 : c = '('
  · subst h10; simp [dispatchToken]
  by_cases h11 : c = ')'
  · subst h11; simp [dispatchToken]
  by_cases h12 : c = '-'
  · subst h12; simp [dispatchToken]
  by_cases h13 : c = '['
  · subst h13; simp [dispatchToken]
  by_cases h14 : c = ']'
  · subst h14; simp [dispatchToken]
  by_cases h15 : c = '}'
  · subst h15; simp [dispatchToken]
  unfold dispatchToken
  simp only [if_neg h3, if_neg h4, if_neg h5, if_neg h6, if_neg h7, if_neg h8,
    if_neg h9, if_neg h10, if_neg h11, if_neg h12, if_neg h13, if_neg h14, if_neg h15]
  simp

lemma lexGo_fails_iff_spec (s : List Char) :
    ∀ (i : Nat) (esc : Bool),
      exceptIsError (lexGo s i esc false) = specScanFails s esc
      ∧ exceptIsError (lexGo s i esc true) =
          (braceBodyBad s || specScanFails (afterBraceBody s) false) := by
  induction s with
  | nil =>
    intro i esc
    constructor
    · simp [lexGo, specScanFails, exceptIsError]
    · simp [lexGo, specScanFails, braceBodyBad, afterBraceBody, exceptIsError]
  | cons c rest ih =>
    intro i esc
    constructor
    · cases esc with
      | true =>
        rw [show lexGo (c :: rest) i true false =
            (lexGo rest (i + 1) false false).map
              (fun ts => Token.ElementToken (if c = 't' then '\t' else c) :: ts) from rfl,
          exceptIsError_map, (ih (i + 1) false).1]
        simp only [specScanFails]
      | false =>
        by_cases hb : c = '\\'
        · subst hb
          rw [show lexGo ('\\' :: rest) i false false = lexGo rest (i + 1) true false from rfl,
            (ih (i + 1) true).1]
          simp [specScanFails]
        · by_cases hbr : c = '{'
          · subst hbr
            rw [show lexGo ('{' :: rest) i false false =
                (lexGo rest (i + 2) false true).map
                  (fun ts => Token.CurlyBrace CurlyBrace.LeftCurlyBrace :: ts) from rfl,
              exceptIsError_map, (ih (i + 2) false).2]
            simp [specScanFails]
          · rw [lexGo_dispatch c rest i hb hbr, exceptIsError_map, (ih (i + 1) false).1]
            simp [specScanFails, if_neg hb, if_neg hbr]
    · by_cases hc : c = ','
      · subst hc
        rw [show lexGo (',' :: rest) i esc true =
            (lexGo rest i esc true).map (fun ts => Token.CommaToken :: ts) from rfl,
          exceptIsError_map, (ih i esc).2]
        simp [braceBodyBad, afterBraceBody, List.takeWhile_cons, List.dropWhile_cons]
      · by_cases hd : c.isDigit = true
        · have hne : c ≠ '}' := fun h => absurd (h ▸ hd) (by decide)
          have e1 : lexGo (c :: rest) i esc true =
              (lexGo rest i esc true).map (fun ts => Token.ElementToken c :: ts) := by
            simp [lexGo, if_neg hc, hd]
          rw [e1, exceptIsError_map, (ih i esc).2]
          simp [braceBodyBad, afterBraceBody, List.takeWhile_cons, List.dropWhile_cons,
            hne, hd, hc]
        · by_cases hbr2 : c = '}'
          · subst hbr2
            rw [show lexGo ('}' :: rest) i esc true =
                (lexGo rest i false false).map
                  (fun ts => Token.CurlyBrace CurlyBrace.RightCurlyBrace :: ts) from rfl,
              exceptIsError_map, (ih i false).1]
            simp [braceBodyBad, afterBraceBody]
          · have e1 : lexGo (c :: rest) i esc true = Except.error (LexerError.mk "") := by
              simp [lexGo, if_neg hc, if_neg hbr2, hd]
            rw [e1]
            simp [exceptIsError, braceBodyBad, List.takeWhile_cons, hbr2, hc, hd]

/-- Characters with a dedicated arm in the normal-mode dispatch of the
scanner (escape lead-in included). -/
def specialChars : List Char :=
  ['\\', '^', '$', '.', '*', '?', '+', '|', '(', ')', '-', '[', ']', '{', '}']

/-- Claim C1: the scan returns a lexical error if and only if an active
brace sub-scan (entered by an unescaped opening brace) consumes a
character that is neither an ASCII digit, nor a comma, nor a closing
brace; no input outside an active brace sub-scan produces an error, and an
unknown top-level character is emitted as a Literal token. -/
theorem scan_error_characterization :
    (∀ s : List Char, (∃ e, lexer s = Except.error e) ↔ specScanFails s false = true)
    ∧ ∀ (c : Char), c ∉ specialChars → ∀ (rest : List Char) (i : Nat),
        lexGo (c :: rest) i false false =
          (lexGo rest (i + 1) false false).map (fun ts => Token.ElementToken c :: ts) := by
  constructor
  · intro s
    rw [exists_error_iff, lexer, (lexGo_fails_iff_spec s 0 false).1]
  · intro c hc rest i
    simp only [specialChars, List.mem_cons, List.not_mem_nil, or_false, not_or] at hc
    obtain ⟨h1, h2, h3, h4, h5, h6, h7, h8, h9, h10, h11, h12, h13, h14, h15⟩ := hc
    rw [lexGo_dispatch c rest i h1 h14]
    simp only [dispatchToken, if_neg h2, if_neg h3, if_neg h4, if_neg h5, if_neg h6,
      if_neg h7, if_neg h8, if_neg h9, if_neg h10, if_neg h11, if_neg h12, if_neg h13,
      if_neg h15]

theorem scan_error_characterization_witness :
    (∃ e, lexer ['{', 'a'] = Except.error e)
    ∧ ('a' ∉ specialChars
        ∧ lexGo ['a'] 0 false false =
            (lexGo [] 1 false false).map (fun ts => Token.ElementToken 'a' :: ts)) := by
  refine ⟨(scan_error_characterization.1 ['{', 'a']).mpr ?_,
    (by decide), scan_error_characterization.2 'a' (by decide) [] 0⟩
  simp [specScanFails, braceBodyBad]

/-- One recursive step of the scanner `lexGo`, relating a scanner state
(remaining input, position counter, escape flag, brace mode) to the state
of the recursive call made when one character is consumed.  The failing
brace-body arm makes no call, so it has no constructor. -/
inductive LexCall :
    List Char × Nat × Bool × Bool → List Char × Nat × Bool × Bool → Prop
  | braceComma (rest : List Char) (i : Nat) (esc : Bool) :
      LexCall (',' :: rest, i, esc, true) (rest, i, esc, true)
  | braceDigit (c : Char) (rest : List Char) (i : Nat) (esc : Bool) :
      c.isDigit = true → LexCall (c :: rest, i, esc, true) (rest, i, esc, true)
  | braceClose (rest : List Char) (i : Nat) (esc : Bool) :
      LexCall ('}' :: rest, i, esc, true) (rest, i, false, false)
  | escaped (c : Char) (rest : List Char) (i : Nat) :
      LexCall (c :: rest, i, true, false) (rest, i + 1, false, false)
  | escapeLead (rest : List Char) (i : Nat) :
      LexCall ('\\' :: rest, i, false, false) (rest, i + 1, true, false)
  | braceEnter (rest : List Char) (i : Nat) :
      LexCall ('{' :: rest, i, false, false) (rest, i + 2, false, true)
  | dispatch (c : Char) (rest : List Char) (i : Nat) :
      c ≠ '\\' → c ≠ '{' → LexCall (c :: rest, i, false, false) (rest, i + 1, false, false)

lemma LexCall_mono {p q : List Char × Nat × Bool × Bool} (h : LexCall p q) :
    p.2.1 ≤ q.2.1 := by
  cases h <;> simp

lemma LexCall_from_normal {s : List Char} {i : Nat}
    {q : List Char × Nat × Bool × Bool} (h : LexCall (s, i, false, false) q) :
    i + 1 ≤ q.2.1 := by
  cases h <;> simp

lemma lexReach_counter (s : List Char) (st : List Char × Nat × Bool × Bool)
    (h : Relation.ReflTransGen LexCall (s, 0, false, false) st) :
    st.2.1 = 0 ↔ st = (s, 0, false, false) := by
  have key : st = (s, 0, false, false) ∨ 1 ≤ st.2.1 := by
    induction h with
    | refl => exact Or.inl rfl
    | tail hab hbc ih =>
      rcases ih with h1 | h1
      · subst h1
        exact Or.inr (LexCall_from_normal hbc)
      · exact Or.inr (le_trans h1 (LexCall_mono hbc))
  constructor
  · intro h0
    rcases key with h1 | h1
    · exact h1
    · omega
  · intro h0
    subst h0
    rfl

/-- Claim C2 (amended): an unescaped caret dispatched in the normal scan
mode is emitted as a Start-anchor token when the position counter is zero
and as a Negation token otherwise, and the position counter is zero
exactly at the initial scanner state, i.e. only for the very first
consumed character of the pattern; a caret consumed inside an active
brace sub-scan instead aborts the scan with a lexical error. -/
theorem caret_start_or_negation :
    (∀ (rest : List Char) (i : Nat),
        lexGo ('^' :: rest) i false false =
          (lexGo rest (i + 1) false false).map
            (fun ts => (if i = 0 then Token.StartToken else Token.NotToken) :: ts))
    ∧ ∀ (s : List Char) (st : List Char × Nat × Bool × Bool),
        Relation.ReflTransGen LexCall (s, 0, false, false) st →
          (st.2.1 = 0 ↔ st = (s, 0, false, false)) :=
  ⟨fun _ _ => rfl, lexReach_counter⟩

/-- Claim C2 counterexample: in the input of an opening brace followed by
a caret, the caret is consumed unescaped at a later position, yet the
scan fails with a lexical error instead of emitting a Negation token. -/
theorem caret_in_brace_counterexample :
    lexer ['{', '^'] = Except.error (LexerError.mk "") := rfl

theorem caret_start_or_negation_witness :
    (lexGo ['^'] 2 false false = Except.ok [Token.NotToken])
    ∧ (((['a'] : List Char), (0 : Nat), false, false).2.1 = 0 ↔
        ((['a'] : List Char), (0 : Nat), false, false) =
          ((['a'] : List Char), (0 : Nat), false, false)) := by
  constructor
  · have h := caret_start_or_negation.1 [] 2
    rw [h]
    rfl
  · exact caret_start_or_negation.2 ['a'] (['a'], 0, false, false)
      Relation.ReflTransGen.refl

lemma lexGo_brace_comma (rest : List Char) (i : Nat) (esc : Bool) :
    lexGo (',' :: rest) i esc true =
      (lexGo rest i esc true).map (fun ts => Token.CommaToken :: ts) := rfl

lemma isDigit_ne (c d : Char) (hc : c.isDigit = true) (hd : d.isDigit = false) :
    c ≠ d := by
  intro he
  subst he
  rw [hc] at hd
  cases hd

lemma lexGo_brace_digit (c : Char) (rest : List Char) (i : Nat) (esc : Bool)
    (hd : c.isDigit = true) :
    lexGo (c :: rest) i esc true =
      (lexGo rest i esc true).map (fun ts => Token.ElementToken c :: ts) := by
  have hc : c ≠ ',' := isDigit_ne c ',' hd (by decide)
  simp [lexGo, if_neg hc, hd]

/-- Claim C3: a character consumed while the escape-pending flag is set is
emitted as a Literal token carrying that character, except that an escaped
letter t is emitted as a Literal carrying the tab character; in particular
escaping neutralizes special meaning, as in the dot and double-backslash
examples. -/
theorem escaped_char_literal :
    (∀ (c : Char) (rest : List Char) (i : Nat),
        lexGo (c :: rest) i true false =
          (lexGo rest (i + 1) false false).map
            (fun ts => Token.ElementToken (if c = 't' then '\t' else c) :: ts))
    ∧ lexer ['\\', '.'] = Except.ok [Token.ElementToken '.']
    ∧ lexer ['a', '\\', 'a'] =
        Except.ok [Token.ElementToken 'a', Token.ElementToken 'a']
    ∧ lexer ['\\', 't'] = Except.ok [Token.ElementToken '\t'] :=
  ⟨fun _ _ _ => rfl, rfl, rfl, rfl⟩

/-- Claim C4: scanning the pattern a-brace-3-comma-5-brace yields exactly
Literal a, Open-brace, Literal 3, Comma, Literal 5, Close-brace; inside a
brace sub-scan a comma is emitted as a Comma token and an ASCII digit as
a Literal token carrying the digit. -/
theorem brace_quantifier_tokens :
    lexer ['a', '{', '3', ',', '5', '}'] =
      Except.ok [Token.ElementToken 'a', Token.CurlyBrace CurlyBrace.LeftCurlyBrace,
        Token.ElementToken '3', Token.CommaToken, Token.ElementToken '5',
        Token.CurlyBrace CurlyBrace.RightCurlyBrace]
    ∧ (∀ (rest : List Char) (i : Nat) (esc : Bool),
        lexGo (',' :: rest) i esc true =
          (lexGo rest i esc true).map (fun ts => Token.CommaToken :: ts))
    ∧ ∀ (c : Char) (rest : List Char) (i : Nat) (esc : Bool),
        c.isDigit = true →
          lexGo (c :: rest) i esc true =
            (lexGo rest i esc true).map (fun ts => Token.ElementToken c :: ts) :=
  ⟨rfl, lexGo_brace_comma, fun c rest i esc hd => lexGo_brace_digit c rest i esc hd⟩

theorem brace_quantifier_tokens_witness :
    Char.isDigit '7' = true
    ∧ lexGo ['7'] 0 false true =
        (lexGo [] 0 false true).map (fun ts => Token.ElementToken '7' :: ts) :=
  ⟨by decide, brace_quantifier_tokens.2.2 '7' [] 0 false (by decide)⟩

/-- Claim C6: an unescaped closing brace consumed outside an active brace
sub-scan is emitted as a Close-brace token at any position and in any
input, and raises no error. -/
theorem stray_close_brace :
    (∀ (rest : List Char) (i : Nat),
        lexGo ('}' :: rest) i false false =
          (lexGo rest (i + 1) false false).map
            (fun ts => Token.CurlyBrace CurlyBrace.RightCurlyBrace :: ts))
    ∧ lexer ['}'] = Except.ok [Token.CurlyBrace CurlyBrace.RightCurlyBrace] :=
  ⟨fun _ _ => rfl, rfl⟩

/-- Claim C8: the scan is a pure, deterministic function of the input
character sequence, so scanning the same input twice yields identical
results, and the empty input yields a successful empty token sequence. -/
theorem scan_deterministic :
    (∀ s : List Char, lexer s = lexer s) ∧ lexer [] = Except.ok [] :=
  ⟨fun _ => rfl, rfl⟩

/-- Claim C10: when the input ends right after an unescaped backslash, the
escape-pending flag is set at exhaustion, the scan returns successfully,
and the trailing backslash contributes no token. -/
theorem trailing_backslash :
    (∀ i : Nat, lexGo ['\\'] i false false = Except.ok [])
    ∧ (∀ (i : Nat) (esc : Bool), lexGo [] i esc false = Except.ok [])
    ∧ lexer ['a', '\\'] = Except.ok [Token.ElementToken 'a'] :=
  ⟨fun _ => rfl, fun _ _ => rfl, rfl⟩

lemma braceMode_all_good (l : List Char) :
    ∀ (i : Nat) (esc : Bool), (∀ c ∈ l, c.isDigit = true ∨ c = ',') →
      lexGo l i esc true =
        Except.ok (l.map fun c =>
          if c = ',' then Token.CommaToken else Token.ElementToken c) := by
  induction l with
  | nil => intro i esc _; rfl
  | cons c rest ih =>
    intro i esc h
    have hc := h c (List.mem_cons_self c rest)
    have hrest : ∀ d ∈ rest, d.isDigit = true ∨ d = ',' :=
      fun d hd => h d (List.mem_cons_of_mem c hd)
    rcases hc with hd | hcomma
    · have hne : c ≠ ',' := isDigit_ne c ',' hd (by decide)
      rw [lexGo_brace_digit c rest i esc hd, ih i esc hrest]
      simp [Except.map, if_neg hne]
    · subst hcomma
      rw [lexGo_brace_comma, ih i esc hrest]
      simp [Except.map]

/-- Claim C5: when a brace sub-scan reaches end-of-input without a closing
brace, the scan returns successfully; the result contains the Open-brace
token and the Comma and Literal tokens of the consumed body, but no
Close-brace token. -/
theorem unterminated_brace_no_error (l : List Char) (i : Nat)
    (h : ∀ c ∈ l, c.isDigit = true ∨ c = ',') :
    lexGo ('{' :: l) i false false =
      Except.ok (Token.CurlyBrace CurlyBrace.LeftCurlyBrace ::
        l.map fun c => if c = ',' then Token.CommaToken else Token.ElementToken c)
    ∧ Token.CurlyBrace CurlyBrace.LeftCurlyBrace ∈
        (Token.CurlyBrace CurlyBrace.LeftCurlyBrace ::
          l.map fun c => if c = ',' then Token.CommaToken else Token.ElementToken c)
    ∧ Token.CurlyBrace CurlyBrace.RightCurlyBrace ∉
        (Token.CurlyBrace CurlyBrace.LeftCurlyBrace ::
          l.map fun c => if c = ',' then Token.CommaToken else Token.ElementToken c) := by
  refine ⟨?_, List.mem_cons_self _ _, ?_⟩
  · have e1 : lexGo ('{' :: l) i false false =
        (lexGo l (i + 2) false true).map
          (fun ts => Token.CurlyBrace CurlyBrace.LeftCurlyBrace :: ts) := rfl
    rw [e1, braceMode_all_good l (i + 2) false h]
    rfl
  · intro hmem
    rcases List.mem_cons.mp hmem with h1 | h1
    · exact absurd h1 (by decide)
    · rcases List.mem_map.mp h1 with ⟨c, _, hcp⟩
      by_cases hcc : c = ','
      · rw [if_pos hcc] at hcp
        exact absurd hcp (by decide)
      · rw [if_neg hcc] at hcp
        cases hcp

theorem unterminated_brace_no_error_witness :
    (∀ c ∈ (['3', ','] : List Char), c.isDigit = true ∨ c = ',')
    ∧ lexer ['{', '3', ','] =
        Except.ok [Token.CurlyBrace CurlyBrace.LeftCurlyBrace, Token.ElementToken '3',
          Token.CommaToken] := by
  refine ⟨by decide, ?_⟩
  have h := (unterminated_brace_no_error ['3', ','] 0 (by decide)).1
  rw [lexer, h]
  rfl

lemma map_eq_ok {ε α β : Type} {f : α → β} {x : Except ε α} {b : β}
    (h : x.map f = Except.ok b) : ∃ a, x = Except.ok a ∧ b = f a := by
  cases x with
  | error e => cases h
  | ok a =>
    refine ⟨a, rfl, ?_⟩
    cases h
    rfl

lemma no_comma_without_brace (s : List Char) :
    ∀ (i : Nat) (esc : Bool) (ts : List Token), '{' ∉ s →
      lexGo s i esc false = Except.ok ts → Token.CommaToken ∉ ts := by
  induction s with
  | nil =>
    intro i esc ts _ hok
    cases hok
    simp
  | cons c rest ih =>
    intro i esc ts h hok
    have hcne : c ≠ '{' := fun he => h (he ▸ List.mem_cons_self c rest)
    have hrest : '{' ∉ rest := fun he => h (List.mem_cons_of_mem c he)
    cases esc with
    | true =>
      rw [show lexGo (c :: rest) i true false =
          (lexGo rest (i + 1) false false).map
            (fun ts => Token.ElementToken (if c = 't' then '\t' else c) :: ts)
          from rfl] at hok
      rcases map_eq_ok hok with ⟨ts2, h2, rfl⟩
      intro hmem
      rcases List.mem_cons.mp hmem with h3 | h3
      · cases h3
      · exact ih (i + 1) false ts2 hrest h2 h3
    | false =>
      by_cases hb : c = '\\'
      · subst hb
        exact ih (i + 1) true ts hrest hok
      · rw [lexGo_dispatch c rest i hb hcne] at hok
        rcases map_eq_ok hok with ⟨ts2, h2, rfl⟩
        intro hmem
        rcases List.mem_cons.mp hmem with h3 | h3
        · exact dispatchToken_ne_comma c i h3.symm
        · exact ih (i + 1) false ts2 hrest h2 h3

/-- Claim C7: the scanner never emits a Comma token outside an active
brace sub-scan: an unescaped comma outside braces is emitted as a Literal
comma, an ASCII digit outside braces as an ordinary Literal token, and no
successful scan of an input without an opening brace contains a Comma
token. -/
theorem comma_literal_outside_braces :
    (∀ (rest : List Char) (i : Nat),
        lexGo (',' :: rest) i false false =
          (lexGo rest (i + 1) false false).map
            (fun ts => Token.ElementToken ',' :: ts))
    ∧ (∀ (c : Char) (rest : List Char) (i : Nat), c.isDigit = true →
        lexGo (c :: rest) i false false =
          (lexGo rest (i + 1) false false).map
            (fun ts => Token.ElementToken c :: ts))
    ∧ lexer ['a', ','] = Except.ok [Token.ElementToken 'a', Token.ElementToken ',']
    ∧ ∀ (s : List Char) (i : Nat) (esc : Bool) (ts : List Token), '{' ∉ s →
        lexGo s i esc false = Except.ok ts → Token.CommaToken ∉ ts := by
  refine ⟨fun rest i => rfl, fun c rest i hd => ?_, rfl, no_comma_without_brace⟩
  rw [lexGo_dispatch c rest i (isDigit_ne c '\\' hd (by decide))
    (isDigit_ne c '{' hd (by decide))]
  simp only [dispatchToken, if_neg (isDigit_ne c '^' hd (by decide)),
    if_neg (isDigit_ne c '$' hd (by decide)), if_neg (isDigit_ne c '.' hd (by decide)),
    if_neg (isDigit_ne c '*' hd (by decide)), if_neg (isDigit_ne c '?' hd (by decide)),
    if_neg (isDigit_ne c '+' hd (by decide)), if_neg (isDigit_ne c '|' hd (by decide)),
    if_neg (isDigit_ne c '(' hd (by decide)), if_neg (isDigit_ne c ')' hd (by decide)),
    if_neg (isDigit_ne c '-' hd (by decide)), if_neg (isDigit_ne c '[' hd (by decide)),
    if_neg (isDigit_ne c ']' hd (by decide)), if_neg (isDigit_ne c '}' hd (by decide))]

theorem comma_literal_outside_braces_witness :
    Char.isDigit '5' = true
    ∧ lexGo ['5'] 0 false false =
        (lexGo [] 1 false false).map (fun ts => Token.ElementToken '5' :: ts)
    ∧ '{' ∉ (['a', ','] : List Char)
    ∧ Token.CommaToken ∉ [Token.ElementToken 'a', Token.ElementToken ','] := by
  refine ⟨by decide, comma_literal_outside_braces.2.1 '5' [] 0 (by decide),
    by decide, ?_⟩
  exact comma_literal_outside_braces.2.2.2 ['a', ','] 0 false
    [Token.ElementToken 'a', Token.ElementToken ','] (by decide) rfl

lemma lexGo_error_msg (s : List Char) :
    ∀ (i : Nat) (esc inBrace : Bool) (e : LexerError),
      lexGo s i esc inBrace = Except.error e → e = LexerError.mk "" := by
  induction s with
  | nil =>
    intro i esc inBrace e h
    cases h
  | cons c rest ih =>
    intro i esc inBrace e h
    cases inBrace with
    | true =>
      by_cases hc : c = ','
      · subst hc
        rw [lexGo_brace_comma, map_eq_error_iff] at h
        exact ih i esc true e h
      · by_cases hd : c.isDigit = true
        · rw [lexGo_brace_digit c rest i esc hd, map_eq_error_iff] at h
          exact ih i esc true e h
        · by_cases hbr : c = '}'
          · subst hbr
            rw [show lexGo ('}' :: rest) i esc true =
                (lexGo rest i false false).map
                  (fun ts => Token.CurlyBrace CurlyBrace.RightCurlyBrace :: ts)
                from rfl, map_eq_error_iff] at h
            exact ih i false false e h
          · have e1 : lexGo (c :: rest) i esc true =
                Except.error (LexerError.mk "") := by
              simp [lexGo, if_neg hc, if_neg hbr, hd]
            rw [e1] at h
            cases h
            rfl
    | false =>
      cases esc with
      | true =>
        rw [show lexGo (c :: rest) i true false =
            (lexGo rest (i + 1) false false).map
              (fun ts => Token.ElementToken (if c = 't' then '\t' else c) :: ts)
            from rfl, map_eq_error_iff] at h
        exact ih (i + 1) false false e h
      | false =>
        by_cases hb : c = '\\'
        · subst hb
          exact ih (i + 1) true false e h
        · by_cases hbr : c = '{'
          · subst hbr
            rw [show lexGo ('{' :: rest) i false false =
                (lexGo rest (i + 2) false true).map
                  (fun ts => Token.CurlyBrace CurlyBrace.LeftCurlyBrace :: ts)
                from rfl, map_eq_error_iff] at h
            exact ih (i + 2) false true e h
          · rw [lexGo_dispatch c rest i hb hbr, map_eq_error_iff] at h
            exact ih (i + 1) false false e h

/-- Claim C9 (amended): every failing scan returns the single structured
error value whose carried message string is empty; the rendered
description of that error is the fixed non-empty text produced by its
display formatting, and no token sequence is returned alongside the
error. -/
theorem error_empty_payload (s : List Char) (e : LexerError)
    (h : lexer s = Except.error e) :
    e.msg = ""
    ∧ LexerError.display e = "There occurred an error in lexer: "
    ∧ LexerError.display e ≠ ""
    ∧ ∀ ts, lexer s ≠ Except.ok ts := by
  have he : e = LexerError.mk "" := lexGo_error_msg s 0 false false e h
  subst he
  refine ⟨rfl, rfl, by decide, fun ts hts => ?_⟩
  rw [h] at hts
  cases hts

/-- Claim C9 counterexample: the failing scan of the pattern consisting of
an opening brace, the letter a and a closing brace returns the error value
carrying the empty message string, not a non-empty one. -/
theorem error_message_empty_counterexample :
    lexer ['{', 'a', '}'] = Except.error (LexerError.mk "") := rfl

theorem error_empty_payload_witness :
    lexer ['{', 'a'] = Except.error (LexerError.mk "")
    ∧ (LexerError.mk "").msg = ""
    ∧ LexerError.display (LexerError.mk "") ≠ "" := by
  have h := error_empty_payload ['{', 'a'] (LexerError.mk "") rfl
  exact ⟨rfl, h.1, h.2.2.1⟩

end Regcheck
